import Mathlib

/-
Verification of the VS Code extension wrapper `src/extension.ts` of the
rust-code-copier repository.

The embedding models the two algorithmically interesting parts of the
wrapper:

* `detectProjectFiles` (extension.ts, lines 158-210): for each selected
  path, walk upward from its directory looking for `Cargo.toml` and for
  the Python project files `pyproject.toml` / `setup.py` /
  `requirements.txt`, with first-match-wins per kind and early exit once
  both kinds are found.  `fs.statSync` throws when the path does not
  exist, which we model with `Except`.

* the stdout summary extraction in `activate` (extension.ts, lines
  117-123): the regular-expression matches
  `/Files processed: (\d+)/`, `/Total size: (\d+) characters/` and
  `/Project type: (\w+)/`, with the fallbacks `multiple` / `unknown` /
  `unknown` when a pattern does not match, and the command-line assembly
  (lines 90-100) that appends `--cargo-toml` / `--pyproject` overrides
  exactly when the detected file is not already among the selected paths.

Filesystem paths are modelled abstractly as lists of components stored
innermost-first, so that `["Cargo.toml", "proj"]` stands for
`proj/Cargo.toml`.  `path.dirname` drops the innermost component and the
fixed point of `dirname` (the filesystem root, where node's
`path.dirname(p) === p`) is the empty list.  The filesystem itself is a
pair of oracles for `fs.existsSync` and `stats.isFile()`.
-/

set_option autoImplicit false

namespace Copier

/-- A filesystem path: components innermost-first; `[]` is the root. -/
abbrev Path := List String

/-- `path.dirname`: drop the innermost component; at the root,
`path.dirname` returns its argument unchanged. -/
def dirname : Path → Path
  | [] => []
  | _ :: parent => parent

/-- `path.join dir name`: descend from `dir` into `name`. -/
def pathJoin (dir : Path) (name : String) : Path :=
  name :: dir

/-- The filesystem snapshot: the results of the only two filesystem
observations `detectProjectFiles` makes, `fs.existsSync` and
`stats.isFile()`. -/
structure FS where
  existsSync : Path → Bool
  isFile : Path → Bool

/-- The part of `fs.Stats` the code reads. -/
structure Stats where
  isFile : Bool
  deriving DecidableEq, Repr

/-- `fs.statSync(p)`: returns the stats when `p` exists and throws
`ENOENT` otherwise (modelled as `Except.error`). -/
def FS.statSync (fs : FS) (p : Path) : Except String Stats :=
  if fs.existsSync p then Except.ok { isFile := fs.isFile p }
  else Except.error ("ENOENT")

/-- The `ProjectFiles` interface of extension.ts (lines 152-155):
`null` is `none`. -/
structure ProjectFiles where
  cargoToml : Option Path
  pythonProject : Option Path
  deriving DecidableEq, Repr

/-- The initial `result` object of `detectProjectFiles`
(lines 159-162). -/
def emptyResult : ProjectFiles :=
  { cargoToml := none, pythonProject := none }

/-- One iteration body of the `while (currentDir)` loop
(lines 170-187): check `Cargo.toml`, then the three Python project
files in priority order, each recorded only when that kind has not been
found yet (`!result.cargoToml` / `!result.pythonProject`). -/
def stepDir (fs : FS) (result : ProjectFiles) (currentDir : Path) : ProjectFiles :=
  let cargoPath := pathJoin currentDir ("Cargo.toml")
  let r1 :=
    if fs.existsSync cargoPath && result.cargoToml.isNone then
      { result with cargoToml := some cargoPath }
    else result
  let pyprojectPath := pathJoin currentDir ("pyproject.toml")
  let setupPyPath := pathJoin currentDir ("setup.py")
  let requirementsPath := pathJoin currentDir ("requirements.txt")
  if fs.existsSync pyprojectPath && r1.pythonProject.isNone then
    { r1 with pythonProject := some pyprojectPath }
  else if fs.existsSync setupPyPath && r1.pythonProject.isNone then
    { r1 with pythonProject := some setupPyPath }
  else if fs.existsSync requirementsPath && r1.pythonProject.isNone then
    { r1 with pythonProject := some requirementsPath }
  else r1

/-- The early-exit test `result.cargoToml && result.pythonProject`
(lines 190 and 204). -/
def bothFound (r : ProjectFiles) : Bool :=
  r.cargoToml.isSome && r.pythonProject.isSome

/-- The `while (currentDir)` loop of `detectProjectFiles`
(lines 169-201): process the current level, break once both kinds are
found, otherwise move to `path.dirname(currentDir)` and break instead
when the parent equals the current directory (the root, i.e. `[]` in
this path model). -/
def walkDir (fs : FS) (result : ProjectFiles) (currentDir : Path) : ProjectFiles :=
  let r := stepDir fs result currentDir
  if bothFound r then r
  else
    match currentDir with
    | [] => r
    | _ :: parentDir => walkDir fs r parentDir

/-- The sequence of directories the `while` loop visits, in visiting
order, starting at `currentDir`: the loop body runs once per element. -/
def visitedDirs (fs : FS) (result : ProjectFiles) (currentDir : Path) : List Path :=
  let r := stepDir fs result currentDir
  if bothFound r then [currentDir]
  else
    match currentDir with
    | [] => [currentDir]
    | _ :: parentDir => currentDir :: visitedDirs fs r parentDir

/-- The full ancestor chain of a directory, from the directory itself up
to and including the root. -/
def ancestorChain : Path → List Path
  | [] => [[]]
  | c :: parent => (c :: parent) :: ancestorChain parent

/-- Lines 165-166: `fs.statSync(filePath)` (throwing on a missing path)
followed by `stats.isFile() ? path.dirname(filePath) : filePath`. -/
def startDir (fs : FS) (filePath : Path) : Except String Path :=
  match fs.statSync filePath with
  | Except.error e => Except.error e
  | Except.ok stats => Except.ok (if stats.isFile then dirname filePath else filePath)

/-- The `for (const filePath of paths)` loop of `detectProjectFiles`
(lines 164-207), threading `result` through the iterations; an exception
from `fs.statSync` aborts the whole function.  After each path's walk
the loop breaks once both kinds are found (line 204). -/
def detectLoop (fs : FS) (result : ProjectFiles) : List Path → Except String ProjectFiles
  | [] => Except.ok result
  | filePath :: rest =>
    match startDir fs filePath with
    | Except.error e => Except.error e
    | Except.ok currentDir =>
      let r := walkDir fs result currentDir
      if bothFound r then Except.ok r
      else detectLoop fs r rest

/-- `detectProjectFiles` (lines 158-210). -/
def detectProjectFiles (fs : FS) (paths : List Path) : Except String ProjectFiles :=
  detectLoop fs emptyResult paths

/-! ## Summary extraction from the core's stdout (lines 117-123)

The wrapper reads the run summary back with
`stdout.match(/Files processed: (\d+)/)`,
`stdout.match(/Total size: (\d+) characters/)` and
`stdout.match(/Project type: (\w+)/)`.  A non-global `match` returns the
leftmost match; we embed it as a scan that tries the pattern at each
start position in turn.  `\d` is `[0-9]` and `\w` is `[A-Za-z0-9_]`.
For these patterns greedy matching never needs to backtrack: the
character following the maximal `\d+` / `\w+` run fails the class, and
in `/Total size: (\d+) characters/` the trailing literal starts with a
space, which also fails `\d`, so a shorter capture cannot succeed where
the maximal one fails. -/

/-- `\w`: `[A-Za-z0-9_]`. -/
def isWordChar (c : Char) : Bool :=
  c.isAlphanum || c = '_'

/-- Match a literal at the head of `s`; on success return the rest. -/
def litMatch : List Char → List Char → Option (List Char)
  | [], s => some s
  | _ :: _, [] => none
  | l :: ls, c :: cs => if c = l then litMatch ls cs else none

/-- Try `lit` followed by a nonempty maximal run of `p`-characters at
the current position; return the captured run. -/
def captureAt (lit : List Char) (p : Char → Bool) (s : List Char) : Option (List Char) :=
  match litMatch lit s with
  | none => none
  | some rest =>
    let run := rest.takeWhile p
    if run = [] then none else some run

/-- Like `captureAt`, but the captured run must be followed by the
literal `trail` (the `/Total size: (\d+) characters/` shape). -/
def captureTrail (lit : List Char) (p : Char → Bool) (trail : List Char)
    (s : List Char) : Option (List Char) :=
  match litMatch lit s with
  | none => none
  | some rest =>
    let run := rest.takeWhile p
    if run = [] then none
    else
      match litMatch trail (rest.drop run.length) with
      | none => none
      | some _ => some run

/-- Leftmost match: try the pattern at every start position of `s`. -/
def searchCapture (f : List Char → Option (List Char)) : List Char → Option (List Char)
  | [] => f []
  | c :: cs =>
    match f (c :: cs) with
    | some r => some r
    | none => searchCapture f cs

/-- `stdout.match(/Files processed: (\d+)/)` — the capture group. -/
def filesMatch (stdout : List Char) : Option (List Char) :=
  searchCapture (captureAt (("Files processed: ").data) Char.isDigit) stdout

/-- `stdout.match(/Total size: (\d+) characters/)` — the capture group. -/
def sizeMatch (stdout : List Char) : Option (List Char) :=
  searchCapture
    (captureTrail (("Total size: ").data) Char.isDigit ((" characters").data)) stdout

/-- `stdout.match(/Project type: (\w+)/)` — the capture group. -/
def typeMatch (stdout : List Char) : Option (List Char) :=
  searchCapture (captureAt (("Project type: ").data) isWordChar) stdout

/-- Lines 121-123: the values shown in the notification, with the
fallbacks used when a pattern did not match. -/
def summaryOf (stdout : List Char) : List Char × List Char × List Char :=
  (match filesMatch stdout with
   | some m => m
   | none => ("multiple").data,
   match sizeMatch stdout with
   | some m => m
   | none => ("unknown").data,
   match typeMatch stdout with
   | some m => m
   | none => ("unknown").data)

/-! ## Command-line assembly (lines 90-100)

`commandArgs` starts from the quoted selected paths and appends
`--cargo-toml <path>` when a Cargo.toml was detected and is not already
among the selected paths, then `--pyproject <path>` under the same
condition for the Python project file.  We model the argument list
structurally; the string rendering only concatenates it. -/

inductive CmdArg where
  | positional (p : Path)
  | cargoTomlFlag (p : Path)
  | pyprojectFlag (p : Path)
  deriving DecidableEq, Repr

/-- Lines 90-100: the argument list passed to the core binary. -/
def buildCommandArgs (selectedPaths : List Path) (projectFiles : ProjectFiles) :
    List CmdArg :=
  let base := selectedPaths.map CmdArg.positional
  let withCargo :=
    match projectFiles.cargoToml with
    | some c =>
      if c ∈ selectedPaths then base
      else base ++ [CmdArg.cargoTomlFlag c]
    | none => base
  match projectFiles.pythonProject with
  | some py =>
    if py ∈ selectedPaths then withCargo
    else withCargo ++ [CmdArg.pyprojectFlag py]
  | none => withCargo

/-! ## Concrete filesystem fixtures for witnesses and counterexamples -/

/-- A snapshot with one project directory `proj` containing
`Cargo.toml`, `pyproject.toml` and a source file `main.rs`. -/
def fsProj : FS where
  existsSync := fun p =>
    (([ [], ["proj"], ["Cargo.toml", "proj"], ["pyproject.toml", "proj"],
        ["main.rs", "proj"] ] : List Path)).contains p
  isFile := fun p =>
    (([ ["Cargo.toml", "proj"], ["pyproject.toml", "proj"],
        ["main.rs", "proj"] ] : List Path)).contains p

/-- A snapshot where the path `m` is missing while the directory `d`
exists and contains a `Cargo.toml`. -/
def fsMissing : FS where
  existsSync := fun p =>
    (([ [], ["d"], ["Cargo.toml", "d"] ] : List Path)).contains p
  isFile := fun p => p = (["Cargo.toml", "d"] : Path)

/-- A detection state in which both kinds have already been recorded. -/
def foundBoth : ProjectFiles :=
  { cargoToml := some (["Cargo.toml", "w"]),
    pythonProject := some (["requirements.txt", "w"]) }

/-- A well-formed summary output of the core, as §4.5 describes it. -/
def sampleStdout : List Char :=
  ("Files processed: 3\nTotal size: 42 characters\nProject type: rust\n").data

/-! ## Helper lemmas about the walk -/

/-- What `stepDir` does to the `cargoToml` field, in closed form. -/
theorem stepDir_cargo_eq (fs : FS) (r : ProjectFiles) (d : Path) :
    (stepDir fs r d).cargoToml =
      if fs.existsSync (pathJoin d ("Cargo.toml")) && r.cargoToml.isNone then
        some (pathJoin d ("Cargo.toml"))
      else r.cargoToml := by
  simp only [stepDir, apply_ite ProjectFiles.cargoToml, ite_self]

/-- What `stepDir` does to the `pythonProject` field, in closed form. -/
theorem stepDir_python_eq (fs : FS) (r : ProjectFiles) (d : Path) :
    (stepDir fs r d).pythonProject =
      if fs.existsSync (pathJoin d ("pyproject.toml")) && r.pythonProject.isNone then
        some (pathJoin d ("pyproject.toml"))
      else if fs.existsSync (pathJoin d ("setup.py")) && r.pythonProject.isNone then
        some (pathJoin d ("setup.py"))
      else if fs.existsSync (pathJoin d ("requirements.txt")) && r.pythonProject.isNone then
        some (pathJoin d ("requirements.txt"))
      else r.pythonProject := by
  simp only [stepDir, apply_ite ProjectFiles.pythonProject, ite_self]

theorem stepDir_cargo_of_some (fs : FS) (r : ProjectFiles) (d : Path) (p : Path)
    (h : r.cargoToml = some p) : (stepDir fs r d).cargoToml = some p := by
  rw [stepDir_cargo_eq, h]
  simp

theorem stepDir_python_of_some (fs : FS) (r : ProjectFiles) (d : Path) (p : Path)
    (h : r.pythonProject = some p) : (stepDir fs r d).pythonProject = some p := by
  rw [stepDir_python_eq, h]
  simp

/-- A `Cargo.toml` already recorded survives the rest of a walk. -/
theorem walkDir_cargo_of_some (fs : FS) (p : Path) :
    ∀ (d : Path) (r : ProjectFiles), r.cargoToml = some p →
      (walkDir fs r d).cargoToml = some p := by
  intro d
  induction d with
  | nil =>
    intro r h
    simp only [walkDir]
    split
    · exact stepDir_cargo_of_some fs r [] p h
    · exact stepDir_cargo_of_some fs r [] p h
  | cons c cs ih =>
    intro r h
    simp only [walkDir]
    split
    · exact stepDir_cargo_of_some fs r (c :: cs) p h
    · exact ih _ (stepDir_cargo_of_some fs r (c :: cs) p h)

/-- A Python project file already recorded survives the rest of a walk. -/
theorem walkDir_python_of_some (fs : FS) (p : Path) :
    ∀ (d : Path) (r : ProjectFiles), r.pythonProject = some p →
      (walkDir fs r d).pythonProject = some p := by
  intro d
  induction d with
  | nil =>
    intro r h
    simp only [walkDir]
    split
    · exact stepDir_python_of_some fs r [] p h
    · exact stepDir_python_of_some fs r [] p h
  | cons c cs ih =>
    intro r h
    simp only [walkDir]
    split
    · exact stepDir_python_of_some fs r (c :: cs) p h
    · exact ih _ (stepDir_python_of_some fs r (c :: cs) p h)

/-- A `Cargo.toml` already recorded survives the rest of the path loop. -/
theorem detectLoop_cargo_of_some (fs : FS) (p : Path) :
    ∀ (paths : List Path) (r res : ProjectFiles),
      r.cargoToml = some p → detectLoop fs r paths = Except.ok res →
      res.cargoToml = some p := by
  intro paths
  induction paths with
  | nil =>
    intro r res h hok
    simp only [detectLoop, Except.ok.injEq] at hok
    rw [← hok]
    exact h
  | cons q rest ih =>
    intro r res h hok
    cases hs : startDir fs q with
    | error e =>
      have heq : detectLoop fs r (q :: rest) = Except.error e := by
        simp [detectLoop, hs]
      rw [heq] at hok
      exact absurd hok (by simp)
    | ok cur =>
      have heq : detectLoop fs r (q :: rest) =
          (if bothFound (walkDir fs r cur) then Except.ok (walkDir fs r cur)
           else detectLoop fs (walkDir fs r cur) rest) := by
        simp [detectLoop, hs]
      rw [heq] at hok
      split at hok
      · simp only [Except.ok.injEq] at hok
        rw [← hok]
        exact walkDir_cargo_of_some fs p cur r h
      · exact ih _ _ (walkDir_cargo_of_some fs p cur r h) hok

/-- A Python project file already recorded survives the path loop. -/
theorem detectLoop_python_of_some (fs : FS) (p : Path) :
    ∀ (paths : List Path) (r res : ProjectFiles),
      r.pythonProject = some p → detectLoop fs r paths = Except.ok res →
      res.pythonProject = some p := by
  intro paths
  induction paths with
  | nil =>
    intro r res h hok
    simp only [detectLoop, Except.ok.injEq] at hok
    rw [← hok]
    exact h
  | cons q rest ih =>
    intro r res h hok
    cases hs : startDir fs q with
    | error e =>
      have heq : detectLoop fs r (q :: rest) = Except.error e := by
        simp [detectLoop, hs]
      rw [heq] at hok
      exact absurd hok (by simp)
    | ok cur =>
      have heq : detectLoop fs r (q :: rest) =
          (if bothFound (walkDir fs r cur) then Except.ok (walkDir fs r cur)
           else detectLoop fs (walkDir fs r cur) rest) := by
        simp [detectLoop, hs]
      rw [heq] at hok
      split at hok
      · simp only [Except.ok.injEq] at hok
        rw [← hok]
        exact walkDir_python_of_some fs p cur r h
      · exact ih _ _ (walkDir_python_of_some fs p cur r h) hok

/-- The walk visits its start directory first. -/
theorem visitedDirs_head (fs : FS) (d : Path) (r : ProjectFiles) :
    (visitedDirs fs r d).head? = some d := by
  cases d with
  | nil =>
    simp only [visitedDirs]
    split <;> rfl
  | cons c cs =>
    simp only [visitedDirs]
    split <;> rfl

/-- The visited directories are an initial segment of the ancestor
chain of the start directory. -/
theorem visitedDirs_take (fs : FS) :
    ∀ (d : Path) (r : ProjectFiles),
      ∃ n, visitedDirs fs r d = (ancestorChain d).take n := by
  intro d
  induction d with
  | nil =>
    intro r
    refine ⟨1, ?_⟩
    simp only [visitedDirs, ancestorChain]
    split <;> rfl
  | cons c cs ih =>
    intro r
    simp only [visitedDirs, ancestorChain]
    split
    · exact ⟨1, rfl⟩
    · obtain ⟨n, hn⟩ := ih (stepDir fs r (c :: cs))
      exact ⟨n + 1, by rw [List.take_succ_cons, hn]⟩

/-- The walk visits at most one directory per ancestor of the start. -/
theorem visitedDirs_length (fs : FS) :
    ∀ (d : Path) (r : ProjectFiles),
      (visitedDirs fs r d).length ≤ d.length + 1 := by
  intro d
  induction d with
  | nil =>
    intro r
    simp only [visitedDirs]
    split <;> simp
  | cons c cs ih =>
    intro r
    simp only [visitedDirs]
    split
    · simp
    · have := ih (stepDir fs r (c :: cs))
      simp only [List.length_cons] at this ⊢
      omega

theorem dirname_length_le (q : Path) : (dirname q).length ≤ q.length := by
  cases q <;> simp [dirname]

/-- Unpack a successful `startDir`. -/
theorem startDir_ok (fs : FS) (p d : Path) (h : startDir fs p = Except.ok d) :
    d = if fs.isFile p then dirname p else p := by
  cases hex : fs.existsSync p with
  | false =>
    have heq : startDir fs p = Except.error ("ENOENT") := by
      simp [startDir, FS.statSync, hex]
    rw [heq] at h
    exact absurd h (by simp)
  | true =>
    have heq : startDir fs p = Except.ok (if fs.isFile p then dirname p else p) := by
      simp [startDir, FS.statSync, hex]
    rw [heq] at h
    simp only [Except.ok.injEq] at h
    exact h.symm

/-! ## Helper lemmas about the stdout pattern matching -/

theorem litMatch_append :
    ∀ (lit s rest : List Char), litMatch lit s = some rest → s = lit ++ rest := by
  intro lit
  induction lit with
  | nil =>
    intro s rest h
    simp only [litMatch, Option.some.injEq] at h
    simp [h]
  | cons l ls ih =>
    intro s rest h
    cases s with
    | nil => simp [litMatch] at h
    | cons c cs =>
      simp only [litMatch] at h
      split at h
      case isTrue hc => rw [hc]; simpa using ih cs rest h
      case isFalse => exact absurd h (by simp)

theorem captureAt_sound (lit : List Char) (p : Char → Bool) (s m : List Char)
    (h : captureAt lit p s = some m) :
    m ≠ [] ∧ (∀ c ∈ m, p c = true) ∧ ∃ r, s = lit ++ m ++ r := by
  unfold captureAt at h
  cases hl : litMatch lit s with
  | none => rw [hl] at h; exact absurd h (by simp)
  | some rest =>
    rw [hl] at h
    simp only at h
    split at h
    · exact absurd h (by simp)
    case isFalse hne =>
      simp only [Option.some.injEq] at h
      subst h
      refine ⟨hne, fun c hc => List.mem_takeWhile_imp hc, rest.dropWhile p, ?_⟩
      rw [litMatch_append lit s rest hl]
      rw [List.append_assoc, List.takeWhile_append_dropWhile]

theorem captureTrail_sound (lit : List Char) (p : Char → Bool) (trail : List Char)
    (s m : List Char) (h : captureTrail lit p trail s = some m) :
    m ≠ [] ∧ (∀ c ∈ m, p c = true) ∧ ∃ r, s = lit ++ m ++ trail ++ r := by
  unfold captureTrail at h
  cases hl : litMatch lit s with
  | none => rw [hl] at h; exact absurd h (by simp)
  | some rest =>
    rw [hl] at h
    simp only at h
    split at h
    · exact absurd h (by simp)
    case isFalse hne =>
      cases ht : litMatch trail (rest.drop (rest.takeWhile p).length) with
      | none => rw [ht] at h; exact absurd h (by simp)
      | some rest2 =>
        rw [ht] at h
        simp only [Option.some.injEq] at h
        subst h
        refine ⟨hne, fun c hc => List.mem_takeWhile_imp hc, rest2, ?_⟩
        have hsplit : rest = rest.takeWhile p ++ rest.dropWhile p :=
          (List.takeWhile_append_dropWhile p rest).symm
        have hdrop : rest.drop (rest.takeWhile p).length = rest.dropWhile p := by
          have h2 := List.drop_left (rest.takeWhile p) (rest.dropWhile p)
          rwa [List.takeWhile_append_dropWhile] at h2
        rw [hdrop] at ht
        have htrail : rest.dropWhile p = trail ++ rest2 := litMatch_append _ _ _ ht
        rw [litMatch_append lit s rest hl]
        conv_lhs => rw [hsplit, htrail]
        simp [List.append_assoc]

/-- A successful leftmost scan found the pattern at some split of the
input. -/
theorem searchCapture_from (f : List Char → Option (List Char)) :
    ∀ (s m : List Char), searchCapture f s = some m →
      ∃ l t, s = l ++ t ∧ f t = some m := by
  intro s
  induction s with
  | nil =>
    intro m h
    simp only [searchCapture] at h
    exact ⟨[], [], rfl, h⟩
  | cons c cs ih =>
    intro m h
    simp only [searchCapture] at h
    cases hf : f (c :: cs) with
    | some r =>
      rw [hf] at h
      simp only [Option.some.injEq] at h
      subst h
      exact ⟨[], c :: cs, rfl, hf⟩
    | none =>
      rw [hf] at h
      obtain ⟨l, t, hs, hft⟩ := ih m h
      exact ⟨c :: l, t, by rw [hs]; rfl, hft⟩

/-! ## Claim theorems -/

/-- C1: in every directory visited during the upward walk, the Python
project manifest is searched in the fixed priority order
`pyproject.toml` first, then `setup.py`, then `requirements.txt`, and
while the Python kind is still unrecorded, the first of these that
exists in the directory is the one recorded. -/
theorem python_manifest_priority (fs : FS) (r : ProjectFiles) (d : Path)
    (h : r.pythonProject = none) :
    (stepDir fs r d).pythonProject =
      if fs.existsSync (pathJoin d ("pyproject.toml")) then
        some (pathJoin d ("pyproject.toml"))
      else if fs.existsSync (pathJoin d ("setup.py")) then
        some (pathJoin d ("setup.py"))
      else if fs.existsSync (pathJoin d ("requirements.txt")) then
        some (pathJoin d ("requirements.txt"))
      else none := by
  rw [stepDir_python_eq, h]
  simp

theorem python_manifest_priority_witness :
    (stepDir fsProj emptyResult (["proj"])).pythonProject =
      if fsProj.existsSync (pathJoin (["proj"]) ("pyproject.toml")) then
        some (pathJoin (["proj"]) ("pyproject.toml"))
      else if fsProj.existsSync (pathJoin (["proj"]) ("setup.py")) then
        some (pathJoin (["proj"]) ("setup.py"))
      else if fsProj.existsSync (pathJoin (["proj"]) ("requirements.txt")) then
        some (pathJoin (["proj"]) ("requirements.txt"))
      else none :=
  python_manifest_priority fsProj emptyResult (["proj"]) rfl

/-- C2: once a manifest of a kind has been recorded, neither the rest of
the current walk nor any later input path replaces it, both for the Rust
kind and for the Python kind. -/
theorem first_match_per_kind_persists (fs : FS) (r : ProjectFiles) (d : Path)
    (paths : List Path) (p : Path) :
    (r.cargoToml = some p → (walkDir fs r d).cargoToml = some p) ∧
    (r.pythonProject = some p → (walkDir fs r d).pythonProject = some p) ∧
    (∀ res, r.cargoToml = some p → detectLoop fs r paths = Except.ok res →
      res.cargoToml = some p) ∧
    (∀ res, r.pythonProject = some p → detectLoop fs r paths = Except.ok res →
      res.pythonProject = some p) :=
  ⟨fun h => walkDir_cargo_of_some fs p d r h,
   fun h => walkDir_python_of_some fs p d r h,
   fun res h hok => detectLoop_cargo_of_some fs p paths r res h hok,
   fun res h hok => detectLoop_python_of_some fs p paths r res h hok⟩

theorem first_match_per_kind_persists_witness :
    (walkDir fsProj foundBoth (["proj"])).cargoToml = some (["Cargo.toml", "w"]) ∧
    (walkDir fsProj foundBoth (["proj"])).pythonProject =
      some (["requirements.txt", "w"]) ∧
    foundBoth.cargoToml = some (["Cargo.toml", "w"]) ∧
    foundBoth.pythonProject = some (["requirements.txt", "w"]) :=
  ⟨(first_match_per_kind_persists fsProj foundBoth (["proj"]) []
      (["Cargo.toml", "w"])).1 rfl,
   (first_match_per_kind_persists fsProj foundBoth (["proj"]) []
      (["requirements.txt", "w"])).2.1 rfl,
   (first_match_per_kind_persists fsProj foundBoth (["proj"]) [ (["main.rs", "proj"]) ]
      (["Cargo.toml", "w"])).2.2.1 foundBoth rfl rfl,
   (first_match_per_kind_persists fsProj foundBoth (["proj"]) [ (["main.rs", "proj"]) ]
      (["requirements.txt", "w"])).2.2.2 foundBoth rfl rfl⟩

/-- C3: the walk for an input path starts at the containing directory
when the input is a file and at the directory itself otherwise, and the
directories it then visits are an initial segment, in order, of the
ancestor chain leading to the filesystem root. -/
theorem walk_starts_at_containing_dir (fs : FS) (r : ProjectFiles) (p d : Path)
    (h : startDir fs p = Except.ok d) :
    (fs.isFile p = true → d = dirname p) ∧
    (fs.isFile p = false → d = p) ∧
    (visitedDirs fs r d).head? = some d ∧
    ∃ n, visitedDirs fs r d = (ancestorChain d).take n := by
  have hd := startDir_ok fs p d h
  refine ⟨?_, ?_, visitedDirs_head fs d r, visitedDirs_take fs d r⟩
  · intro hf
    simp [hd, hf]
  · intro hf
    simp [hd, hf]

theorem walk_starts_at_containing_dir_witness :
    (fsProj.isFile (["main.rs", "proj"]) = true →
      (["proj"] : Path) = dirname (["main.rs", "proj"])) ∧
    (fsProj.isFile (["main.rs", "proj"]) = false → (["proj"] : Path) = ["main.rs", "proj"]) ∧
    (visitedDirs fsProj emptyResult (["proj"])).head? = some (["proj"]) ∧
    ∃ n, visitedDirs fsProj emptyResult (["proj"]) =
      (ancestorChain (["proj"])).take n :=
  walk_starts_at_containing_dir fsProj emptyResult (["main.rs", "proj"]) (["proj"]) rfl

/-- C4: a walk stops at the level at which manifests of both kinds have
been found, and a manifest a level has recorded is never replaced by a
match in a higher-level directory. -/
theorem walk_stops_early_after_both (fs : FS) (r : ProjectFiles) (d : Path) :
    (bothFound (stepDir fs r d) = true → visitedDirs fs r d = [d]) ∧
    (∀ p, (stepDir fs r d).cargoToml = some p → (walkDir fs r d).cargoToml = some p) ∧
    (∀ p, (stepDir fs r d).pythonProject = some p →
      (walkDir fs r d).pythonProject = some p) := by
  refine ⟨?_, ?_, ?_⟩
  · intro hb
    cases d with
    | nil => simp [visitedDirs, hb]
    | cons c cs => simp [visitedDirs, hb]
  · intro p hp
    cases d with
    | nil =>
      simp only [walkDir]
      split
      · exact hp
      · exact hp
    | cons c cs =>
      simp only [walkDir]
      split
      · exact hp
      · exact walkDir_cargo_of_some fs p cs _ hp
  · intro p hp
    cases d with
    | nil =>
      simp only [walkDir]
      split
      · exact hp
      · exact hp
    | cons c cs =>
      simp only [walkDir]
      split
      · exact hp
      · exact walkDir_python_of_some fs p cs _ hp

theorem walk_stops_early_after_both_witness :
    visitedDirs fsProj emptyResult (["proj"]) = [ (["proj"]) ] ∧
    (walkDir fsProj emptyResult (["proj"])).cargoToml =
      some (["Cargo.toml", "proj"]) ∧
    (walkDir fsProj emptyResult (["proj"])).pythonProject =
      some (["pyproject.toml", "proj"]) :=
  ⟨(walk_stops_early_after_both fsProj emptyResult (["proj"])).1 rfl,
   (walk_stops_early_after_both fsProj emptyResult (["proj"])).2.1
     (["Cargo.toml", "proj"]) rfl,
   (walk_stops_early_after_both fsProj emptyResult (["proj"])).2.2
     (["pyproject.toml", "proj"]) rfl⟩

/-- C5 counterexample: in `fsMissing` the first input `m` is missing
while the second input `d` exists and contains a Cargo.toml that
detection on `d` alone finds; yet running on both inputs the whole
detection aborts with the `statSync` error instead of continuing with
the remaining input. -/
theorem missing_input_aborts_cex :
    fsMissing.existsSync (["m"]) = false ∧
    fsMissing.existsSync (["d"]) = true ∧
    fsMissing.existsSync (["Cargo.toml", "d"]) = true ∧
    detectProjectFiles fsMissing [ (["m"]), (["d"]) ] = Except.error ("ENOENT") ∧
    detectProjectFiles fsMissing [ (["d"]) ] =
      Except.ok { cargoToml := some (["Cargo.toml", "d"]), pythonProject := none } :=
  ⟨rfl, rfl, rfl, rfl, rfl⟩

/-- C5 amended: a missing input path is fatal for the whole detection
run, not only for that input: when the first input path does not exist,
`fs.statSync` throws and `detectProjectFiles` propagates the error
without processing the remaining inputs. -/
theorem missing_first_input_fatal (fs : FS) (p : Path) (rest : List Path)
    (h : fs.existsSync p = false) :
    detectProjectFiles fs (p :: rest) = Except.error ("ENOENT") := by
  simp [detectProjectFiles, detectLoop, startDir, FS.statSync, h]

theorem missing_first_input_fatal_witness :
    detectProjectFiles fsMissing ((["m"]) :: [ (["d"]) ]) = Except.error ("ENOENT") :=
  missing_first_input_fatal fsMissing (["m"]) [ (["d"]) ] rfl

/-- C6: whenever one of the three stdout patterns produces a capture,
the capture is a nonempty decimal digit string (for the two counts) or a
nonempty single word of word characters (for the project type), and the
full pattern occurs literally in the output around the capture. -/
theorem summary_patterns_sound (stdout : List Char) :
    (∀ m, filesMatch stdout = some m →
      m ≠ [] ∧ (∀ c ∈ m, c.isDigit = true) ∧
      ∃ l r, stdout = l ++ (("Files processed: ").data) ++ m ++ r) ∧
    (∀ m, sizeMatch stdout = some m →
      m ≠ [] ∧ (∀ c ∈ m, c.isDigit = true) ∧
      ∃ l r, stdout =
        l ++ (("Total size: ").data) ++ m ++ ((" characters").data) ++ r) ∧
    (∀ m, typeMatch stdout = some m →
      m ≠ [] ∧ (∀ c ∈ m, isWordChar c = true) ∧
      ∃ l r, stdout = l ++ (("Project type: ").data) ++ m ++ r) := by
  refine ⟨?_, ?_, ?_⟩
  · intro m h
    simp only [filesMatch] at h
    obtain ⟨l, t, hs, hf⟩ := searchCapture_from _ stdout m h
    obtain ⟨hne, hall, r, ht⟩ := captureAt_sound _ _ _ _ hf
    exact ⟨hne, hall, l, r, by rw [hs, ht]; simp [List.append_assoc]⟩
  · intro m h
    simp only [sizeMatch] at h
    obtain ⟨l, t, hs, hf⟩ := searchCapture_from _ stdout m h
    obtain ⟨hne, hall, r, ht⟩ := captureTrail_sound _ _ _ _ _ hf
    exact ⟨hne, hall, l, r, by rw [hs, ht]; simp [List.append_assoc]⟩
  · intro m h
    simp only [typeMatch] at h
    obtain ⟨l, t, hs, hf⟩ := searchCapture_from _ stdout m h
    obtain ⟨hne, hall, r, ht⟩ := captureAt_sound _ _ _ _ hf
    exact ⟨hne, hall, l, r, by rw [hs, ht]; simp [List.append_assoc]⟩

theorem summary_patterns_sound_witness :
    ((("3").data) ≠ [] ∧ (∀ c ∈ (("3").data), c.isDigit = true) ∧
      ∃ l r, sampleStdout = l ++ (("Files processed: ").data) ++ (("3").data) ++ r) ∧
    ((("42").data) ≠ [] ∧ (∀ c ∈ (("42").data), c.isDigit = true) ∧
      ∃ l r, sampleStdout =
        l ++ (("Total size: ").data) ++ (("42").data) ++ ((" characters").data) ++ r) ∧
    ((("rust").data) ≠ [] ∧ (∀ c ∈ (("rust").data), isWordChar c = true) ∧
      ∃ l r, sampleStdout = l ++ (("Project type: ").data) ++ (("rust").data) ++ r) :=
  ⟨(summary_patterns_sound sampleStdout).1 (("3").data) rfl,
   (summary_patterns_sound sampleStdout).2.1 (("42").data) rfl,
   (summary_patterns_sound sampleStdout).2.2 (("rust").data) rfl⟩

/-- C7: a detected manifest path is passed to the core as the
corresponding named override argument if and only if it is not already
among the selected positional input paths. -/
theorem override_flags_iff (selectedPaths : List Path) (pf : ProjectFiles) (p : Path) :
    (CmdArg.cargoTomlFlag p ∈ buildCommandArgs selectedPaths pf ↔
      pf.cargoToml = some p ∧ p ∉ selectedPaths) ∧
    (CmdArg.pyprojectFlag p ∈ buildCommandArgs selectedPaths pf ↔
      pf.pythonProject = some p ∧ p ∉ selectedPaths) := by
  obtain ⟨c, py⟩ := pf
  cases c with
  | none =>
    cases py with
    | none => simp [buildCommandArgs]
    | some py1 =>
      by_cases hpy : py1 ∈ selectedPaths <;>
        simp [buildCommandArgs, hpy] <;> aesop
  | some c1 =>
    cases py with
    | none =>
      by_cases hc : c1 ∈ selectedPaths <;>
        simp [buildCommandArgs, hc] <;> aesop
    | some py1 =>
      by_cases hc : c1 ∈ selectedPaths <;> by_cases hpy : py1 ∈ selectedPaths <;>
        simp [buildCommandArgs, hc, hpy] <;> aesop

/-- C8: for an existing input path the upward walk terminates after at
most one step per ancestor of the start directory: the number of visited
directories is bounded by the depth of the start directory, and hence by
the depth of the input path, plus one for the root. -/
theorem walk_terminates_bounded (fs : FS) (r : ProjectFiles) (p d : Path)
    (h : startDir fs p = Except.ok d) :
    (visitedDirs fs r d).length ≤ d.length + 1 ∧
    (visitedDirs fs r d).length ≤ p.length + 1 := by
  have hlen := visitedDirs_length fs d r
  refine ⟨hlen, le_trans hlen ?_⟩
  have hd := startDir_ok fs p d h
  have hle : d.length ≤ p.length := by
    rw [hd]
    split
    · exact dirname_length_le p
    · exact le_refl _
  omega

theorem walk_terminates_bounded_witness :
    (visitedDirs fsProj emptyResult (["proj"])).length ≤ (["proj"] : Path).length + 1 ∧
    (visitedDirs fsProj emptyResult (["proj"])).length ≤
      (["main.rs", "proj"] : Path).length + 1 :=
  walk_terminates_bounded fsProj emptyResult (["main.rs", "proj"]) (["proj"]) rfl

/-- C9: when a summary pattern does not match the core's stdout, the
notification falls back to `multiple` for the file count and `unknown`
for the character count and the project type. -/
theorem summary_fallback_values (stdout : List Char) :
    (filesMatch stdout = none → (summaryOf stdout).1 = (("multiple").data)) ∧
    (sizeMatch stdout = none → (summaryOf stdout).2.1 = (("unknown").data)) ∧
    (typeMatch stdout = none → (summaryOf stdout).2.2 = (("unknown").data)) := by
  refine ⟨fun h => ?_, fun h => ?_, fun h => ?_⟩ <;> simp [summaryOf, h]

theorem summary_fallback_values_witness :
    (summaryOf (("core exploded").data)).1 = (("multiple").data) ∧
    (summaryOf (("core exploded").data)).2.1 = (("unknown").data) ∧
    (summaryOf (("core exploded").data)).2.2 = (("unknown").data) :=
  ⟨(summary_fallback_values (("core exploded").data)).1 rfl,
   (summary_fallback_values (("core exploded").data)).2.1 rfl,
   (summary_fallback_values (("core exploded").data)).2.2 rfl⟩

/-- C10: detection is a function of the filesystem snapshot alone: two
filesystems whose existence and file/directory oracles agree everywhere
yield identical detection results on the same ordered input paths. -/
theorem detect_deterministic (fs1 fs2 : FS) (paths : List Path)
    (hex : ∀ q, fs1.existsSync q = fs2.existsSync q)
    (hfile : ∀ q, fs1.isFile q = fs2.isFile q) :
    detectProjectFiles fs1 paths = detectProjectFiles fs2 paths := by
  have hfs : fs1 = fs2 := by
    cases fs1
    cases fs2
    congr 1
    · exact funext hex
    · exact funext hfile
  rw [hfs]

theorem detect_deterministic_witness :
    detectProjectFiles fsProj [ (["main.rs", "proj"]) ] =
      detectProjectFiles fsProj [ (["main.rs", "proj"]) ] :=
  detect_deterministic fsProj fsProj [ (["main.rs", "proj"]) ]
    (fun _ => rfl) (fun _ => rfl)

end Copier
